import Mathlib

/-!
Verification of `setup_julia.py` (gpu-jupyter setup script).

The script is embedded shallowly:

* the filesystem is an association list from path strings to nodes
  (directory, regular file, symbolic link, tar archive); paths are opaque
  strings, exactly the strings the Python code builds with `os.path.join`;
* the process environment is a partial map `String → Option String`;
  `os.environ[k]` on a missing key is a `KeyError`, modelled by `Except`;
* every fallible operation returns `Except Err FS`; the script never
  catches exceptions, so the translation is a chain of `Except.bind`;
* the remote version manifest (`versions.json`) is a list of
  key/entry pairs in document order, as Python's `dict` preserves
  insertion order; network input is a parameter of the model.

Operating-system facilities used by the script (`os.path.exists`,
`os.remove`, `os.symlink`, `os.makedirs`, `shutil.unpack_archive`,
the external `mv` and `curl` commands, `open(..., "w")`) are modelled
directly below; each model notes the behaviour it captures.
-/

namespace SetupJulia

/-- A node of the modelled filesystem: a directory, a regular file with its
text content, a symbolic link with its target path, or a gzipped tar archive
whose extraction creates the directory `root` and one regular file per
relative path in `entries`. -/
inductive Node where
  | dir : Node
  | file (content : String) : Node
  | symlink (target : String) : Node
  | archive (root : String) (entries : List String) : Node
  deriving DecidableEq

/-- A filesystem state: path/node pairs, looked up by first match. -/
abbrev FS := List (String × Node)

/-- Failures of the script, named after the Python exceptions they model. -/
inductive Err where
  | keyError (key : String)
  | valueError
  | indexError
  | readError (path : String)
  | fileNotFoundError (path : String)
  | isADirectoryError (path : String)
  | fileExistsError (path : String)
  | calledProcessError (cmd : String)
  deriving DecidableEq

/-- The node recorded at path `p`, if any (the link itself, not its target). -/
def lookupFS : FS → String → Option Node
  | [], _ => none
  | e :: rest, p => if e.1 = p then some e.2 else lookupFS rest p

/-- Remove the entry at path `p`. -/
def eraseFS (p : String) : FS → FS
  | [] => []
  | e :: rest => if e.1 = p then eraseFS p rest else e :: eraseFS p rest

/-- Put node `n` at path `p`, replacing any previous entry. -/
def setFS (p : String) (n : Node) (fs : FS) : FS :=
  (p, n) :: eraseFS p fs

/-- `os.path.lexists`: an entry is present at the path itself. -/
def lexistsFS (fs : FS) (p : String) : Bool :=
  (lookupFS fs p).isSome

/-- Resolve a path through chains of symbolic links, with fuel; a dangling
link or a link cycle resolves to `none`. -/
def resolveN (fs : FS) : Nat → String → Option Node
  | 0, _ => none
  | n + 1, p =>
    match lookupFS fs p with
    | some (Node.symlink t) => resolveN fs n t
    | o => o

/-- `os.path.exists`: follows symbolic links; `false` on a dangling link or
a link cycle (Python swallows the `ELOOP` error and returns `False`). -/
def pathExists (fs : FS) (p : String) : Bool :=
  (resolveN fs (fs.length + 1) p).isSome

/-- `os.path.isdir`: the path resolves, through links, to a directory. -/
def isDirFS (fs : FS) (p : String) : Bool :=
  match resolveN fs (fs.length + 1) p with
  | some Node.dir => true
  | _ => false

/-- `os.path.join` for two components (POSIX): an absolute second component
wins; otherwise the components are glued with `/` unless the first is empty
or already ends in `/`. -/
def joinPath (a b : String) : String :=
  if b.data.head? = some '/' then b
  else if a.data = [] ∨ a.data.getLast? = some '/' then ⟨a.data ++ b.data⟩
  else ⟨a.data ++ '/' :: b.data⟩

/-- `os.remove`: deletes the entry at the path itself (a symbolic link is
removed, not followed); `FileNotFoundError` when nothing is there,
`IsADirectoryError` on a directory. -/
def osRemove (fs : FS) (p : String) : Except Err FS :=
  match lookupFS fs p with
  | none => Except.error (Err.fileNotFoundError p)
  | some Node.dir => Except.error (Err.isADirectoryError p)
  | some _ => Except.ok (eraseFS p fs)

/-- `os.makedirs(p, exist_ok=True)`: succeeds if the path already resolves
to a directory, fails with `FileExistsError` if a non-directory entry is in
the way, creates the directory otherwise (intermediate directories are not
tracked because paths are opaque strings). -/
def makedirs (fs : FS) (p : String) : Except Err FS :=
  if lexistsFS fs p then
    if isDirFS fs p then Except.ok fs else Except.error (Err.fileExistsError p)
  else Except.ok (setFS p Node.dir fs)

/-- `os.symlink(target, lnk)`: fails with `FileExistsError` when an entry,
a dangling link included, is already present at `lnk`. -/
def osSymlink (fs : FS) (target lnk : String) : Except Err FS :=
  if lexistsFS fs lnk then Except.error (Err.fileExistsError lnk)
  else Except.ok (setFS lnk (Node.symlink target) fs)

/-- `open(p, "w")` followed by a single `write`: truncates or creates the
regular file at `p` (writing through a symbolic link at `p` is modelled as
replacing the entry at `p` itself); `IsADirectoryError` on a directory. -/
def writeFile (fs : FS) (p : String) (c : String) : Except Err FS :=
  match lookupFS fs p with
  | some Node.dir => Except.error (Err.isADirectoryError p)
  | _ => Except.ok (setFS p (Node.file c) fs)

/-- `shutil.unpack_archive(src, dest, "gztar")`: reads the archive at `src`
(following links), creates one regular file per member below `dest` and the
archive's root directory at `dest`; a non-archive regular file raises a read
error, a missing file raises `FileNotFoundError`. -/
def unpackArchive (fs : FS) (src dest : String) : Except Err FS :=
  match resolveN fs (fs.length + 1) src with
  | some (Node.archive root entries) =>
    Except.ok (setFS (joinPath dest root) Node.dir
      (entries.foldl (fun acc e => setFS (joinPath dest e) (Node.file "") acc) fs))
  | some _ => Except.error (Err.readError src)
  | none => Except.error (Err.fileNotFoundError src)

/-- The final path component, as `basename` computes it. -/
def lastComponent : List Char → List Char → List Char
  | acc, [] => acc
  | acc, c :: rest => if c = '/' then lastComponent [] rest else lastComponent (acc ++ [c]) rest

def basename (p : String) : String :=
  ⟨lastComponent [] p.data⟩

/-- Rename the subtree rooted at `src` to `dst`: the entry at `src` itself
and every entry below `src/` move, keeping their relative paths. -/
def renameTree (fs : FS) (src dst : String) : FS :=
  fs.map (fun e =>
    if e.1 = src then (dst, e.2)
    else if (src.data ++ ['/']).isPrefixOf e.1.data then
      (⟨dst.data ++ '/' :: e.1.data.drop (src.data.length + 1)⟩, e.2)
    else e)

/-- The external `mv src dst` invoked through `subprocess.check_call`:
moving into an existing directory places `src` under it; a missing source or
an existing non-directory destination make the command fail (the script only
ever moves a directory), which `check_call` turns into an exception. -/
def mvCmd (fs : FS) (src dst : String) : Except Err FS :=
  if lexistsFS fs src then
    if isDirFS fs dst then Except.ok (renameTree fs src (joinPath dst (basename src)))
    else if lexistsFS fs dst then Except.error (Err.calledProcessError "mv")
    else Except.ok (renameTree fs src dst)
  else Except.error (Err.calledProcessError "mv")

/-! ## The script itself -/

/-- The temporary download target used by `download_julia` and consumed by
`prepare_julia`. -/
def tarPath : String := "/tmp/julia.tar.gz"

/-- `unify_aarch64`: the dictionary lookup of the source; any machine string
other than the three keys is a `KeyError`, modelled as `none`. -/
def unify_aarch64 (machine : String) : Option String :=
  if machine = "aarch64" then some "aarch64"
  else if machine = "arm64" then some "aarch64"
  else if machine = "x86_64" then some "x86_64"
  else none

/-- One record of a manifest entry's `files` list. -/
structure FileRecord where
  triplet : String
  url : String
  version : String
  deriving DecidableEq

/-- One manifest entry: the `stable` flag and the `files` list. -/
structure VersionEntry where
  stable : Bool
  files : List FileRecord
  deriving DecidableEq

/-- The parsed `versions.json`: version keys paired with entries, in
document order. -/
abbrev Manifest := List (String × VersionEntry)

/-- The dict comprehension keeping the entries whose `stable` flag is set. -/
def stableVersions (m : Manifest) : Manifest :=
  m.filter (fun kv => kv.2.stable)

/-- Python string `<`: lexicographic comparison of the code points. -/
def pyStrLt (a b : String) : Bool :=
  decide (a.data < b.data)

/-- Python's `max` over the keys of a dict: `ValueError` (here `none`) on an
empty dict, otherwise the left fold that keeps the strictly greater key. -/
def maxKey : Manifest → Option String
  | [] => none
  | kv :: rest => some (rest.foldl (fun a x => if pyStrLt a x.1 then x.1 else a) kv.1)

/-- Dict subscription `m[k]`: the entry stored under `k`. -/
def lookupEntry : Manifest → String → Option VersionEntry
  | [], _ => none
  | kv :: rest, k => if kv.1 = k then some kv.2 else lookupEntry rest k

/-- `get_latest_julia_url`, given the parsed manifest and
`platform.machine()`: pick the stable entries, take the one under the
greatest key, build the platform triplet, and return url and version of the
first file record with that triplet (`[0]` on no match is an `IndexError`). -/
def get_latest_julia_url (versions : Manifest) (machine : String) :
    Except Err (String × String) :=
  match maxKey (stableVersions versions) with
  | none => Except.error Err.valueError
  | some k =>
    match lookupEntry (stableVersions versions) k with
    | none => Except.error (Err.keyError k)
    | some entry =>
      match unify_aarch64 machine with
      | none => Except.error (Err.keyError machine)
      | some arch =>
        match entry.files.filter (fun vf => decide (vf.triplet = arch ++ "-linux-gnu")) with
        | [] => Except.error Err.indexError
        | vf :: _ => Except.ok (vf.url, vf.version)

/-- The `requests.get(...).json()` boundary: a failed fetch propagates its
exception, a successful one hands the manifest to `get_latest_julia_url`. -/
def run_get_latest (fetched : Except Err Manifest) (machine : String) :
    Except Err (String × String) :=
  match fetched with
  | Except.error e => Except.error e
  | Except.ok m => get_latest_julia_url m machine

/-- `download_julia`: `curl` writes whatever it fetched to
`/tmp/julia.tar.gz`; a failed download is a `CalledProcessError`. The
commented-out unpack and unlink lines of the source are not executed. -/
def download_julia (fetched : Option Node) (fs : FS) : Except Err FS :=
  match fetched with
  | none => Except.error (Err.calledProcessError "curl")
  | some payload => Except.ok (setFS tarPath payload fs)

/-- `os.path.join(os.environ["CONDA_DIR"], "envs", name)`. -/
def condaEnvPath (condaDir name : String) : String :=
  joinPath (joinPath condaDir "envs") name

/-- The `julia` directory inside the conda environment. -/
def juliaEnvPath (condaDir name : String) : String :=
  joinPath (condaEnvPath condaDir name) "julia"

/-- The Julia binary inside the julia environment directory. -/
def juliaBinPath (condaDir name : String) : String :=
  joinPath (joinPath (juliaEnvPath condaDir name) "bin") "julia"

/-- The symlink location in the conda environment's `bin`. -/
def condaLinkPath (condaDir name : String) : String :=
  joinPath (joinPath (condaEnvPath condaDir name) "bin") "julia"

/-- The jupyter environment's `bin` directory. -/
def jupyterBinDir (condaDir jname : String) : String :=
  joinPath (condaEnvPath condaDir jname) "bin"

/-- The symlink location in the jupyter environment's `bin`. -/
def jupyterLinkPath (condaDir jname : String) : String :=
  joinPath (jupyterBinDir condaDir jname) "julia"

/-- The `etc/julia` directory inside the julia environment. -/
def startupDir (condaDir name : String) : String :=
  joinPath (joinPath (juliaEnvPath condaDir name) "etc") "julia"

/-- The `juliarc.jl` startup file inside that directory. -/
def startupFile (condaDir name : String) : String :=
  joinPath (startupDir condaDir name) "juliarc.jl"

/-- The single line written to `juliarc.jl`. -/
def juliarcLine (cep : String) : String :=
  "push!(Libdl.DL_LOAD_PATH, \"" ++ joinPath cep "lib" ++ "\")"

/-- The full content of `juliarc.jl`: that line and its newline. -/
def juliarcContent (cep : String) : String :=
  juliarcLine cep ++ "\n"

/-- The symlink-creation step of `prepare_julia`:
`if os.path.exists(lnk): os.remove(lnk)` followed by
`os.symlink(target, lnk)`. -/
def replaceSymlink (fs : FS) (target lnk : String) : Except Err FS :=
  (if pathExists fs lnk then osRemove fs lnk else Except.ok fs).bind
    (fun fs1 => osSymlink fs1 target lnk)

/-- Lines 88 to 127 of `prepare_julia`: unpack the archive into the conda
environment, delete the archive, rename `julia-VERSION` to `julia`, create
both `bin` directories and both symlinks. -/
def installAndLink (condaDir juliaVersion condaEnvName jupyterEnvName : String)
    (fs : FS) : Except Err FS :=
  (unpackArchive fs tarPath (condaEnvPath condaDir condaEnvName)).bind (fun fs1 =>
  (osRemove fs1 tarPath).bind (fun fs2 =>
  (mvCmd fs2 (joinPath (condaEnvPath condaDir condaEnvName) ("julia-" ++ juliaVersion))
      (juliaEnvPath condaDir condaEnvName)).bind (fun fs3 =>
  (makedirs fs3 (joinPath (condaEnvPath condaDir condaEnvName) "bin")).bind (fun fs4 =>
  (replaceSymlink fs4 (juliaBinPath condaDir condaEnvName)
      (condaLinkPath condaDir condaEnvName)).bind (fun fs5 =>
  (makedirs fs5 (jupyterBinDir condaDir jupyterEnvName)).bind (fun fs6 =>
  replaceSymlink fs6 (juliaBinPath condaDir condaEnvName)
      (jupyterLinkPath condaDir jupyterEnvName)))))))

/-- Lines 131 to 143 of `prepare_julia`: read `JULIA_PKGDIR` (a `KeyError`
when absent), create it, create the startup directory, write `juliarc.jl`. -/
def configure (env : String → Option String) (condaDir condaEnvName : String)
    (fs : FS) : Except Err FS :=
  match env "JULIA_PKGDIR" with
  | none => Except.error (Err.keyError "JULIA_PKGDIR")
  | some pkgDir =>
    (makedirs fs pkgDir).bind (fun fs8 =>
    (makedirs fs8 (startupDir condaDir condaEnvName)).bind (fun fs9 =>
    writeFile fs9 (startupFile condaDir condaEnvName)
      (juliarcContent (condaEnvPath condaDir condaEnvName))))

/-- `prepare_julia`: read `CONDA_DIR` (a `KeyError` when absent), then the
install-and-link phase followed by the configuration phase. -/
def prepare_julia (env : String → Option String)
    (juliaVersion condaEnvName jupyterEnvName : String) (fs : FS) : Except Err FS :=
  match env "CONDA_DIR" with
  | none => Except.error (Err.keyError "CONDA_DIR")
  | some condaDir =>
    (installAndLink condaDir juliaVersion condaEnvName jupyterEnvName fs).bind
      (configure env condaDir condaEnvName)

/-- The `__main__` block: resolve the latest url and version, download, then
prepare with the environment names `julia-env` and `jupyter`. -/
def script_main (fetched : Except Err Manifest) (machine : String)
    (payload : Option Node) (env : String → Option String) (fs : FS) : Except Err FS :=
  match run_get_latest fetched machine with
  | Except.error e => Except.error e
  | Except.ok uv =>
    match download_julia payload fs with
    | Except.error e => Except.error e
    | Except.ok fs1 => prepare_julia env uv.2 "julia-env" "jupyter" fs1

/-! ## Concrete data used by the witnesses -/

/-- An environment with both required variables set. -/
def env0 : String → Option String :=
  fun k =>
    if k = "CONDA_DIR" then some "/opt/conda"
    else if k = "JULIA_PKGDIR" then some "/opt/julia-pkg" else none

/-- A start state holding only the downloaded archive. -/
def fs0 : FS :=
  [(tarPath, Node.archive "julia-1.10.0" ["julia-1.10.0/bin/julia"])]

/-- The state `prepare_julia env0 "1.10.0" "julia-env" "jupyter" fs0`
produces. -/
def fsFinal : FS :=
  [("/opt/conda/envs/julia-env/julia/etc/julia/juliarc.jl",
     Node.file "push!(Libdl.DL_LOAD_PATH, \"/opt/conda/envs/julia-env/lib\")\n"),
   ("/opt/conda/envs/julia-env/julia/etc/julia", Node.dir),
   ("/opt/julia-pkg", Node.dir),
   ("/opt/conda/envs/jupyter/bin/julia",
     Node.symlink "/opt/conda/envs/julia-env/julia/bin/julia"),
   ("/opt/conda/envs/jupyter/bin", Node.dir),
   ("/opt/conda/envs/julia-env/bin/julia",
     Node.symlink "/opt/conda/envs/julia-env/julia/bin/julia"),
   ("/opt/conda/envs/julia-env/bin", Node.dir),
   ("/opt/conda/envs/julia-env/julia", Node.dir),
   ("/opt/conda/envs/julia-env/julia/bin/julia", Node.file "")]

/-- An environment with only `CONDA_DIR` set. -/
def env1 : String → Option String :=
  fun k => if k = "CONDA_DIR" then some "/opt/conda" else none

/-- The state `installAndLink "/opt/conda" "1.10.0" "julia-env" "jupyter" fs0`
produces. -/
def fsLinks : FS :=
  [("/opt/conda/envs/jupyter/bin/julia",
     Node.symlink "/opt/conda/envs/julia-env/julia/bin/julia"),
   ("/opt/conda/envs/jupyter/bin", Node.dir),
   ("/opt/conda/envs/julia-env/bin/julia",
     Node.symlink "/opt/conda/envs/julia-env/julia/bin/julia"),
   ("/opt/conda/envs/julia-env/bin", Node.dir),
   ("/opt/conda/envs/julia-env/julia", Node.dir),
   ("/opt/conda/envs/julia-env/julia/bin/julia", Node.file "")]

/-- A prior state in which both link locations hold links that resolve and
the Julia binary is in place. -/
def fsPrior : FS :=
  [("/opt/conda/envs/julia-env/bin/julia", Node.symlink "/old/julia"),
   ("/old/julia", Node.file "old"),
   ("/opt/conda/envs/julia-env/julia/bin/julia", Node.file "bin")]

/-- A start state holding the archive and a dangling link at the conda
link location. -/
def fsPrior2 : FS :=
  [(tarPath, Node.archive "julia-1.10.0" ["julia-1.10.0/bin/julia"]),
   ("/opt/conda/envs/julia-env/bin/julia", Node.symlink "/removed/julia")]

/-- `fsPrior2` after the unpack step. -/
def fsStage1 : FS :=
  [("/opt/conda/envs/julia-env/julia-1.10.0", Node.dir),
   ("/opt/conda/envs/julia-env/julia-1.10.0/bin/julia", Node.file ""),
   (tarPath, Node.archive "julia-1.10.0" ["julia-1.10.0/bin/julia"]),
   ("/opt/conda/envs/julia-env/bin/julia", Node.symlink "/removed/julia")]

/-- `fsStage1` after the archive removal step. -/
def fsStage2 : FS :=
  [("/opt/conda/envs/julia-env/julia-1.10.0", Node.dir),
   ("/opt/conda/envs/julia-env/julia-1.10.0/bin/julia", Node.file ""),
   ("/opt/conda/envs/julia-env/bin/julia", Node.symlink "/removed/julia")]

/-- `fsStage2` after the rename step. -/
def fsStage3 : FS :=
  [("/opt/conda/envs/julia-env/julia", Node.dir),
   ("/opt/conda/envs/julia-env/julia/bin/julia", Node.file ""),
   ("/opt/conda/envs/julia-env/bin/julia", Node.symlink "/removed/julia")]

/-- `fsStage3` after the `bin` directory creation step. -/
def fsStage4 : FS :=
  [("/opt/conda/envs/julia-env/bin", Node.dir),
   ("/opt/conda/envs/julia-env/julia", Node.dir),
   ("/opt/conda/envs/julia-env/julia/bin/julia", Node.file ""),
   ("/opt/conda/envs/julia-env/bin/julia", Node.symlink "/removed/julia")]

/-- A manifest with two stable versions whose numeric and lexicographic
orderings disagree. -/
def demoManifest : Manifest :=
  [("1.10.0", ⟨true,
     [⟨"x86_64-linux-gnu", "https://example.org/bin/julia-1.10.0-linux-x86_64.tar.gz", "1.10.0"⟩]⟩),
   ("1.9.0", ⟨true,
     [⟨"x86_64-linux-gnu", "https://example.org/bin/julia-1.9.0-linux-x86_64.tar.gz", "1.9.0"⟩,
      ⟨"aarch64-linux-gnu", "https://example.org/bin/julia-1.9.0-linux-aarch64.tar.gz", "1.9.0"⟩]⟩)]

/-! ## Helper lemmas -/

theorem bind_ok {α β : Type} {e : Except Err α} {f : α → Except Err β} {b : β} :
    e.bind f = Except.ok b ↔ ∃ a, e = Except.ok a ∧ f a = Except.ok b := by
  cases e <;> simp [Except.bind]

theorem lookup_erase_ne {fs : FS} {p q : String} (h : q ≠ p) :
    lookupFS (eraseFS p fs) q = lookupFS fs q := by
  induction fs with
  | nil => rfl
  | cons e rest ih =>
    simp only [eraseFS]
    by_cases h1 : e.1 = p
    · rw [if_pos h1, ih]
      simp only [lookupFS]
      rw [if_neg (fun h2 => h (by rw [← h2, h1]))]
    · rw [if_neg h1]
      simp only [lookupFS]
      rw [ih]

theorem lookup_erase_self {fs : FS} {p : String} :
    lookupFS (eraseFS p fs) p = none := by
  induction fs with
  | nil => rfl
  | cons e rest ih =>
    simp only [eraseFS]
    by_cases h1 : e.1 = p
    · rw [if_pos h1]; exact ih
    · rw [if_neg h1]
      simp only [lookupFS]
      rw [if_neg h1]
      exact ih

theorem lookup_set_self {fs : FS} {p : String} {n : Node} :
    lookupFS (setFS p n fs) p = some n := by
  simp [setFS, lookupFS]

theorem lookup_set_ne {fs : FS} {p q : String} {n : Node} (h : q ≠ p) :
    lookupFS (setFS p n fs) q = lookupFS fs q := by
  simp only [setFS, lookupFS]
  rw [if_neg (fun hq => h (hq.symm))]
  exact lookup_erase_ne h

theorem erase_erase {fs : FS} {p : String} :
    eraseFS p (eraseFS p fs) = eraseFS p fs := by
  induction fs with
  | nil => rfl
  | cons e rest ih =>
    simp only [eraseFS]
    by_cases h1 : e.1 = p
    · rw [if_pos h1]; exact ih
    · rw [if_neg h1]
      simp only [eraseFS]
      rw [if_neg h1, ih]

theorem erase_set_self {fs : FS} {p : String} {n : Node} :
    eraseFS p (setFS p n fs) = eraseFS p fs := by
  show eraseFS p ((p, n) :: eraseFS p fs) = eraseFS p fs
  simp only [eraseFS, if_true]
  exact erase_erase

theorem set_set {fs : FS} {p : String} {n : Node} :
    setFS p n (setFS p n fs) = setFS p n fs := by
  show (p, n) :: eraseFS p (setFS p n fs) = setFS p n fs
  rw [erase_set_self]
  rfl

theorem lexists_eq_false {fs : FS} {p : String} (h : lookupFS fs p = none) :
    lexistsFS fs p = false := by
  simp [lexistsFS, h]

theorem lookup_of_lexists {fs : FS} {p : String} (h : lexistsFS fs p = true) :
    ∃ n, lookupFS fs p = some n := by
  cases hn : lookupFS fs p with
  | none => simp [lexistsFS, hn] at h
  | some n => exact ⟨n, rfl⟩

theorem pathExists_none {fs : FS} {p : String} (h : lookupFS fs p = none) :
    pathExists fs p = false := by
  simp [pathExists, resolveN, h]

theorem pathExists_file {fs : FS} {p c : String}
    (h : lookupFS fs p = some (Node.file c)) : pathExists fs p = true := by
  simp [pathExists, resolveN, h]

theorem pathExists_link_file {fs : FS} {p t c : String}
    (h : lookupFS fs p = some (Node.symlink t))
    (ht : lookupFS fs t = some (Node.file c)) : pathExists fs p = true := by
  have hne : fs ≠ [] := by
    intro hnil
    rw [hnil] at h
    simp [lookupFS] at h
  obtain ⟨e, rest, hfs⟩ : ∃ e rest, fs = e :: rest := by
    cases fs with
    | nil => exact absurd rfl hne
    | cons e rest => exact ⟨e, rest, rfl⟩
  have hlen : fs.length = rest.length + 1 := by rw [hfs]; rfl
  simp only [pathExists, hlen, resolveN, h, ht]
  rfl

theorem isDir_false_of_none {fs : FS} {p : String} (h : lookupFS fs p = none) :
    isDirFS fs p = false := by
  simp [isDirFS, resolveN, h]

theorem lookup_none_forall {fs : FS} {p : String} (h : lookupFS fs p = none) :
    ∀ e ∈ fs, e.1 ≠ p := by
  induction fs with
  | nil => intro e he; cases he
  | cons e rest ih =>
    intro x hx
    by_cases h1 : e.1 = p
    · simp [lookupFS, h1] at h
    · simp only [lookupFS, if_neg h1] at h
      cases hx with
      | head => exact h1
      | tail _ hmem => exact ih h x hmem

theorem osRemove_ok_inv {fs fs2 : FS} {p : String}
    (h : osRemove fs p = Except.ok fs2) : fs2 = eraseFS p fs := by
  unfold osRemove at h
  cases hn : lookupFS fs p with
  | none => rw [hn] at h; cases h
  | some n =>
    rw [hn] at h
    cases n <;> simp_all

theorem makedirs_pres {fs fs2 : FS} {p q : String} {n : Node}
    (h : makedirs fs p = Except.ok fs2) (hq : lookupFS fs q = some n) :
    lookupFS fs2 q = some n := by
  unfold makedirs at h
  by_cases h1 : lexistsFS fs p
  · rw [if_pos h1] at h
    by_cases h2 : isDirFS fs p
    · rw [if_pos h2] at h
      cases h
      exact hq
    · simp [h2] at h
  · rw [if_neg h1] at h
    cases h
    have hqp : q ≠ p := by
      intro he
      rw [he] at hq
      cases hl : lookupFS fs p with
      | none => rw [hl] at hq; cases hq
      | some m => simp [lexistsFS, hl] at h1
    rw [lookup_set_ne hqp]
    exact hq

theorem makedirs_pres_none {fs fs2 : FS} {p q : String}
    (h : makedirs fs p = Except.ok fs2) (hqp : q ≠ p)
    (hq : lookupFS fs q = none) : lookupFS fs2 q = none := by
  unfold makedirs at h
  by_cases h1 : lexistsFS fs p
  · rw [if_pos h1] at h
    by_cases h2 : isDirFS fs p
    · rw [if_pos h2] at h; cases h; exact hq
    · simp [h2] at h
  · rw [if_neg h1] at h
    cases h
    rw [lookup_set_ne hqp]
    exact hq

theorem replaceSymlink_ok_at {fs fs2 : FS} {target lnk : String}
    (h : replaceSymlink fs target lnk = Except.ok fs2) :
    lookupFS fs2 lnk = some (Node.symlink target) := by
  unfold replaceSymlink at h
  obtain ⟨fs1, h1, h2⟩ := bind_ok.mp h
  unfold osSymlink at h2
  by_cases h3 : lexistsFS fs1 lnk
  · rw [if_pos h3] at h2; cases h2
  · rw [if_neg h3] at h2
    cases h2
    exact lookup_set_self

theorem replaceSymlink_frame {fs fs2 : FS} {target lnk q : String}
    (h : replaceSymlink fs target lnk = Except.ok fs2) (hq : q ≠ lnk) :
    lookupFS fs2 q = lookupFS fs q := by
  unfold replaceSymlink at h
  obtain ⟨fs1, h1, h2⟩ := bind_ok.mp h
  unfold osSymlink at h2
  by_cases h3 : lexistsFS fs1 lnk
  · rw [if_pos h3] at h2; cases h2
  · rw [if_neg h3] at h2
    cases h2
    rw [lookup_set_ne hq]
    by_cases hp : pathExists fs lnk
    · rw [if_pos hp] at h1
      rw [osRemove_ok_inv h1, lookup_erase_ne hq]
    · rw [if_neg hp] at h1
      cases h1
      rfl

theorem writeFile_ok_inv {fs fs2 : FS} {p c : String}
    (h : writeFile fs p c = Except.ok fs2) : fs2 = setFS p (Node.file c) fs := by
  unfold writeFile at h
  cases hn : lookupFS fs p with
  | none => rw [hn] at h; cases h; rfl
  | some n =>
    rw [hn] at h
    cases n <;> simp_all

theorem unpack_ok_inv {fs fs1 : FS} {src dest : String}
    (h : unpackArchive fs src dest = Except.ok fs1) :
    ∃ root entries, resolveN fs (fs.length + 1) src = some (Node.archive root entries) ∧
      fs1 = setFS (joinPath dest root) Node.dir
        (entries.foldl (fun acc e => setFS (joinPath dest e) (Node.file "") acc) fs) := by
  unfold unpackArchive at h
  cases hn : resolveN fs (fs.length + 1) src with
  | none => rw [hn] at h; cases h
  | some n =>
    rw [hn] at h
    cases n with
    | archive root entries =>
      refine ⟨root, entries, rfl, ?_⟩
      cases h
      rfl
    | dir => cases h
    | file c => cases h
    | symlink t => cases h

theorem foldl_set_lookup_ne {dest q : String} {l : List String} {fs : FS}
    (h : ∀ e ∈ l, joinPath dest e ≠ q) :
    lookupFS (l.foldl (fun acc e => setFS (joinPath dest e) (Node.file "") acc) fs) q =
      lookupFS fs q := by
  induction l generalizing fs with
  | nil => rfl
  | cons e rest ih =>
    simp only [List.foldl]
    rw [ih (fun x hx => h x (List.mem_cons_of_mem e hx))]
    exact lookup_set_ne (fun hq => h e (List.mem_cons_self e rest) hq.symm)

theorem mv_ok_inv {fs fs3 : FS} {src dst : String}
    (h : mvCmd fs src dst = Except.ok fs3) :
    ∃ d, (d = joinPath dst (basename src) ∨ d = dst) ∧ fs3 = renameTree fs src d := by
  unfold mvCmd at h
  by_cases h1 : lexistsFS fs src
  · rw [if_pos h1] at h
    by_cases h2 : isDirFS fs dst
    · rw [if_pos h2] at h
      cases h
      exact ⟨joinPath dst (basename src), Or.inl rfl, rfl⟩
    · rw [if_neg h2] at h
      by_cases h3 : lexistsFS fs dst
      · simp [h3] at h
      · rw [if_neg h3] at h
        cases h
        exact ⟨dst, Or.inr rfl, rfl⟩
  · simp [h1] at h

theorem rename_lookup_dst {fs : FS} {src dst : String} {n : Node}
    (hdst : lookupFS fs dst = none) (hsrc : lookupFS fs src = some n) :
    lookupFS (renameTree fs src dst) dst = some n := by
  induction fs with
  | nil => cases hsrc
  | cons e rest ih =>
    by_cases h1 : e.1 = dst
    · simp [lookupFS, h1] at hdst
    · simp only [lookupFS, if_neg h1] at hdst
      by_cases h2 : e.1 = src
      · have hn : e.2 = n := by
          simpa [lookupFS, h2] using hsrc
        simp [renameTree, List.map, h2, lookupFS, hn]
      · simp only [lookupFS, if_neg h2] at hsrc
        simp only [renameTree, List.map, if_neg h2]
        by_cases h3 : (src.data ++ ['/']).isPrefixOf e.1.data
        · simp only [if_pos h3, lookupFS]
          have hk : (⟨dst.data ++ '/' :: e.1.data.drop (src.data.length + 1)⟩ : String) ≠ dst := by
            intro he
            have hd := congrArg String.data he
            simp only at hd
            have := congrArg List.length hd
            simp [List.length_append] at this
          rw [if_neg hk]
          exact ih hdst hsrc
        · simp only [if_neg h3, lookupFS, if_neg h1]
          exact ih hdst hsrc

theorem rename_pres_none {fs : FS} {src dst q : String}
    (hq : lookupFS fs q = none) (hqd : q ≠ dst)
    (hpre : (dst.data ++ ['/']).isPrefixOf q.data = false) :
    lookupFS (renameTree fs src dst) q = none := by
  induction fs with
  | nil => rfl
  | cons e rest ih =>
    by_cases h1 : e.1 = q
    · simp [lookupFS, h1] at hq
    · simp only [lookupFS, if_neg h1] at hq
      simp only [renameTree, List.map]
      by_cases h2 : e.1 = src
      · simp only [if_pos h2, lookupFS]
        rw [if_neg (fun h => hqd h.symm)]
        exact ih hq
      · rw [if_neg h2]
        by_cases h3 : (src.data ++ ['/']).isPrefixOf e.1.data
        · simp only [if_pos h3, lookupFS]
          have hk : (⟨dst.data ++ '/' :: e.1.data.drop (src.data.length + 1)⟩ : String) ≠ q := by
            intro he
            have hd := congrArg String.data he
            simp only at hd
            have : (dst.data ++ ['/']).isPrefixOf q.data = true := by
              rw [List.isPrefixOf_iff_prefix, ← hd]
              exact ⟨e.1.data.drop (src.data.length + 1), by simp⟩
            rw [this] at hpre
            cases hpre
          rw [if_neg hk]
          exact ih hq
        · simp only [if_neg h3, lookupFS, if_neg h1]
          exact ih hq

theorem bind_ok_apply {α β : Type} {e : Except Err α} {f : α → Except Err β} {a : α}
    (h : e = Except.ok a) : e.bind f = f a := by
  rw [h]; rfl

theorem error_bind {α β : Type} {e : Err} {f : α → Except Err β} :
    (Except.error e : Except Err α).bind f = Except.error e := rfl

theorem except_bind_assoc {α β γ : Type} (e : Except Err α)
    (f : α → Except Err β) (g : β → Except Err γ) :
    (e.bind f).bind g = e.bind (fun x => (f x).bind g) := by
  cases e <;> rfl

theorem osSymlink_ok {fs : FS} {target lnk : String} (h : lexistsFS fs lnk = false) :
    osSymlink fs target lnk = Except.ok (setFS lnk (Node.symlink target) fs) := by
  unfold osSymlink
  rw [h]
  rfl

theorem resolve_of_lookup_none {fs : FS} {p : String} (h : lookupFS fs p = none) :
    resolveN fs (fs.length + 1) p = none := by
  simp [resolveN, h]

theorem unpack_missing {fs : FS} {src dest : String} (h : lookupFS fs src = none) :
    unpackArchive fs src dest = Except.error (Err.fileNotFoundError src) := by
  unfold unpackArchive
  rw [resolve_of_lookup_none h]

theorem newline_not_in_join {a : String} (ha : '\n' ∉ a.data) (b : String)
    (hb : '\n' ∉ b.data) : '\n' ∉ (joinPath a b).data := by
  unfold joinPath
  by_cases h1 : b.data.head? = some '/'
  · rw [if_pos h1]; exact hb
  · rw [if_neg h1]
    by_cases h2 : a.data = [] ∨ a.data.getLast? = some '/'
    · rw [if_pos h2]
      intro hmem
      rcases List.mem_append.mp hmem with h | h
      · exact ha h
      · exact hb h
    · rw [if_neg h2]
      intro hmem
      rcases List.mem_append.mp hmem with h | h
      · exact ha h
      · rcases List.mem_cons.mp h with h3 | h3
        · exact absurd h3 (by decide)
        · exact hb h3

theorem pyStrLt_iff {a b : String} : pyStrLt a b = true ↔ a.data < b.data := by
  simp [pyStrLt]

theorem foldMax_mem (l : Manifest) (a : String) :
    (l.foldl (fun b x => if pyStrLt b x.1 then x.1 else b) a) = a ∨
      (l.foldl (fun b x => if pyStrLt b x.1 then x.1 else b) a) ∈ l.map Prod.fst := by
  induction l generalizing a with
  | nil => exact Or.inl rfl
  | cons x l ih =>
    simp only [List.foldl, List.map]
    rcases ih (if pyStrLt a x.1 then x.1 else a) with h | h
    · rw [h]
      by_cases hc : pyStrLt a x.1
      · rw [if_pos hc]
        exact Or.inr (List.mem_cons_self _ _)
      · rw [if_neg hc]
        exact Or.inl rfl
    · exact Or.inr (List.mem_cons_of_mem _ h)

theorem foldMax_ub (l : Manifest) (a : String) :
    a.data ≤ (l.foldl (fun b x => if pyStrLt b x.1 then x.1 else b) a).data ∧
      ∀ k ∈ l.map Prod.fst,
        k.data ≤ (l.foldl (fun b x => if pyStrLt b x.1 then x.1 else b) a).data := by
  induction l generalizing a with
  | nil => exact ⟨le_refl _, fun k hk => absurd hk (List.not_mem_nil k)⟩
  | cons x l ih =>
    simp only [List.foldl, List.map]
    obtain ⟨h1, h2⟩ := ih (if pyStrLt a x.1 then x.1 else a)
    by_cases hc : pyStrLt a x.1
    · rw [if_pos hc] at h1 h2 ⊢
      have hax : a.data ≤ x.1.data := le_of_lt (pyStrLt_iff.mp hc)
      refine ⟨le_trans hax h1, ?_⟩
      intro k hk
      rcases List.mem_cons.mp hk with hk1 | hk1
      · rw [hk1]; exact h1
      · exact h2 k hk1
    · rw [if_neg hc] at h1 h2 ⊢
      have hxa : x.1.data ≤ a.data := by
        by_contra hlt
        exact hc (pyStrLt_iff.mpr (lt_of_not_le hlt))
      refine ⟨h1, ?_⟩
      intro k hk
      rcases List.mem_cons.mp hk with hk1 | hk1
      · rw [hk1]; exact le_trans hxa h1
      · exact h2 k hk1

theorem maxKey_spec {l : Manifest} {k : String} (h : maxKey l = some k) :
    k ∈ l.map Prod.fst ∧ ∀ j ∈ l.map Prod.fst, pyStrLt k j = false := by
  cases l with
  | nil => cases h
  | cons kv rest =>
    have hk : k = rest.foldl (fun b x => if pyStrLt b x.1 then x.1 else b) kv.1 := by
      have := h
      unfold maxKey at this
      exact (Option.some.inj this).symm
    obtain ⟨hub1, hub2⟩ := foldMax_ub rest kv.1
    constructor
    · rcases foldMax_mem rest kv.1 with hm | hm
      · rw [hk, hm]
        exact List.mem_cons_self _ _
      · rw [hk]
        simp only [List.map]
        exact List.mem_cons_of_mem _ hm
    · intro j hj
      have hjk : j.data ≤ k.data := by
        rcases List.mem_cons.mp (show j ∈ kv.1 :: rest.map Prod.fst from hj) with hj1 | hj1
        · rw [hj1, hk]; exact hub1
        · rw [hk]; exact hub2 j hj1
      cases hlt : pyStrLt k j with
      | false => rfl
      | true => exact absurd (pyStrLt_iff.mp hlt) (not_lt.mpr hjk)

theorem resolve_of_lookup_archive {fs : FS} {p root : String} {entries : List String}
    (h : lookupFS fs p = some (Node.archive root entries)) :
    resolveN fs (fs.length + 1) p = some (Node.archive root entries) := by
  simp [resolveN, h]

/-- Inverting a successful `prepare_julia` run into its eleven stages. -/
theorem prepare_ok_inv {env : String → Option String} {v cn jn condaDir : String}
    {fs fsF : FS} (henv : env "CONDA_DIR" = some condaDir)
    (h : prepare_julia env v cn jn fs = Except.ok fsF) :
    ∃ fs1 fs2 fs3 fs4 fs5 fs6 fs7 pkgDir fs8 fs9,
      unpackArchive fs tarPath (condaEnvPath condaDir cn) = Except.ok fs1 ∧
      osRemove fs1 tarPath = Except.ok fs2 ∧
      mvCmd fs2 (joinPath (condaEnvPath condaDir cn) ("julia-" ++ v))
          (juliaEnvPath condaDir cn) = Except.ok fs3 ∧
      makedirs fs3 (joinPath (condaEnvPath condaDir cn) "bin") = Except.ok fs4 ∧
      replaceSymlink fs4 (juliaBinPath condaDir cn) (condaLinkPath condaDir cn) =
          Except.ok fs5 ∧
      makedirs fs5 (jupyterBinDir condaDir jn) = Except.ok fs6 ∧
      replaceSymlink fs6 (juliaBinPath condaDir cn) (jupyterLinkPath condaDir jn) =
          Except.ok fs7 ∧
      env "JULIA_PKGDIR" = some pkgDir ∧
      makedirs fs7 pkgDir = Except.ok fs8 ∧
      makedirs fs8 (startupDir condaDir cn) = Except.ok fs9 ∧
      writeFile fs9 (startupFile condaDir cn)
          (juliarcContent (condaEnvPath condaDir cn)) = Except.ok fsF := by
  unfold prepare_julia at h
  rw [henv] at h
  replace h : (installAndLink condaDir v cn jn fs).bind (configure env condaDir cn) =
      Except.ok fsF := h
  obtain ⟨fs7, hIL, hCfg⟩ := bind_ok.mp h
  unfold installAndLink at hIL
  obtain ⟨fs1, h1, hIL⟩ := bind_ok.mp hIL
  obtain ⟨fs2, h2, hIL⟩ := bind_ok.mp hIL
  obtain ⟨fs3, h3, hIL⟩ := bind_ok.mp hIL
  obtain ⟨fs4, h4, hIL⟩ := bind_ok.mp hIL
  obtain ⟨fs5, h5, hIL⟩ := bind_ok.mp hIL
  obtain ⟨fs6, h6, h7⟩ := bind_ok.mp hIL
  unfold configure at hCfg
  cases hpkg : env "JULIA_PKGDIR" with
  | none => rw [hpkg] at hCfg; cases hCfg
  | some pkgDir =>
    rw [hpkg] at hCfg
    replace hCfg : (makedirs fs7 pkgDir).bind (fun fs8 =>
        (makedirs fs8 (startupDir condaDir cn)).bind (fun fs9 =>
        writeFile fs9 (startupFile condaDir cn)
          (juliarcContent (condaEnvPath condaDir cn)))) = Except.ok fsF := hCfg
    obtain ⟨fs8, h8, hCfg⟩ := bind_ok.mp hCfg
    obtain ⟨fs9, h9, h10⟩ := bind_ok.mp hCfg
    exact ⟨fs1, fs2, fs3, fs4, fs5, fs6, fs7, pkgDir, fs8, fs9,
      h1, h2, h3, h4, h5, h6, h7, rfl, h8, h9, h10⟩

/-! ## Claims -/

/-- C1: for a manifest of the known shape, when the entry under the greatest
stable key is present, the machine is supported and exactly one file record
of that entry carries the triplet `unify_aarch64(machine) ++ "-linux-gnu"`,
the platform-filtering step of `get_latest_julia_url` selects exactly that
record and returns its url and version. -/
theorem c1_platform_filter_selects_matching_entry
    (m : Manifest) (machine k arch : String) (entry : VersionEntry) (rec : FileRecord)
    (hmax : maxKey (stableVersions m) = some k)
    (hent : lookupEntry (stableVersions m) k = some entry)
    (harch : unify_aarch64 machine = some arch)
    (hone : entry.files.filter
        (fun vf => decide (vf.triplet = arch ++ "-linux-gnu")) = [rec]) :
    get_latest_julia_url m machine = Except.ok (rec.url, rec.version) ∧
      rec.triplet = arch ++ "-linux-gnu" ∧ rec ∈ entry.files := by
  have hmem : rec ∈ entry.files.filter
      (fun vf => decide (vf.triplet = arch ++ "-linux-gnu")) := by
    rw [hone]
    exact List.mem_singleton.mpr rfl
  have hmem2 := List.mem_filter.mp hmem
  refine ⟨?_, of_decide_eq_true hmem2.2, hmem2.1⟩
  simp only [get_latest_julia_url, hmax, hent, harch, hone]

/-- C1 witness: on `demoManifest` and machine `x86_64` the function returns
the url and version of the single matching file record of the entry under
the greatest stable key. -/
theorem c1_witness :
    get_latest_julia_url demoManifest "x86_64" =
        Except.ok ("https://example.org/bin/julia-1.9.0-linux-x86_64.tar.gz", "1.9.0") ∧
      ("x86_64-linux-gnu" : String) = "x86_64" ++ "-linux-gnu" ∧
      (⟨"x86_64-linux-gnu", "https://example.org/bin/julia-1.9.0-linux-x86_64.tar.gz",
          "1.9.0"⟩ : FileRecord) ∈
        [(⟨"x86_64-linux-gnu", "https://example.org/bin/julia-1.9.0-linux-x86_64.tar.gz",
            "1.9.0"⟩ : FileRecord),
         ⟨"aarch64-linux-gnu", "https://example.org/bin/julia-1.9.0-linux-aarch64.tar.gz",
            "1.9.0"⟩] :=
  c1_platform_filter_selects_matching_entry demoManifest "x86_64" "1.9.0" "x86_64"
    ⟨true,
      [⟨"x86_64-linux-gnu", "https://example.org/bin/julia-1.9.0-linux-x86_64.tar.gz",
          "1.9.0"⟩,
       ⟨"aarch64-linux-gnu", "https://example.org/bin/julia-1.9.0-linux-aarch64.tar.gz",
          "1.9.0"⟩]⟩
    ⟨"x86_64-linux-gnu", "https://example.org/bin/julia-1.9.0-linux-x86_64.tar.gz",
        "1.9.0"⟩
    (by decide) (by decide) rfl (by decide)

/-- C2 counterexample: a filesystem state in which a link already exists at
the conda-environment link location (a dangling one, whose target is gone)
makes the symlink-creation step fail with `FileExistsError` instead of
removing and recreating the link, because `os.path.exists` follows the link
and reports `False`, so `os.remove` is skipped and `os.symlink` hits the
existing entry. -/
theorem c2_counterexample :
    lookupFS [("/opt/conda/envs/julia-env/bin/julia", Node.symlink "/removed/julia")]
        "/opt/conda/envs/julia-env/bin/julia" =
        some (Node.symlink "/removed/julia") ∧
      replaceSymlink
          [("/opt/conda/envs/julia-env/bin/julia", Node.symlink "/removed/julia")]
          (juliaBinPath "/opt/conda" "julia-env")
          "/opt/conda/envs/julia-env/bin/julia" =
        Except.error (Err.fileExistsError "/opt/conda/envs/julia-env/bin/julia") :=
  ⟨rfl, rfl⟩

/-- C2 (amended): for every prior state in which the link location holds a
link that resolves to an existing target (so `os.path.exists` reports it)
and the Julia binary exists at the new target, the symlink-creation step
removes the old link, creates the new one, and re-running the step returns
the very same state. -/
theorem c2_replace_link_idempotent
    (fs : FS) (p target t c : String)
    (hlink : lookupFS fs p = some (Node.symlink t))
    (hres : pathExists fs p = true)
    (hbin : lookupFS fs target = some (Node.file c))
    (hne : target ≠ p) :
    ∃ fs2, replaceSymlink fs target p = Except.ok fs2 ∧
      lookupFS fs2 p = some (Node.symlink target) ∧
      replaceSymlink fs2 target p = Except.ok fs2 := by
  have hrm : osRemove fs p = Except.ok (eraseFS p fs) := by
    unfold osRemove
    rw [hlink]
  refine ⟨setFS p (Node.symlink target) (eraseFS p fs), ?_, lookup_set_self, ?_⟩
  · unfold replaceSymlink
    rw [if_pos hres, bind_ok_apply hrm]
    exact osSymlink_ok (lexists_eq_false lookup_erase_self)
  · have hlook2 : lookupFS (setFS p (Node.symlink target) (eraseFS p fs)) target =
        some (Node.file c) := by
      rw [lookup_set_ne hne, lookup_erase_ne hne]
      exact hbin
    have hres2 : pathExists (setFS p (Node.symlink target) (eraseFS p fs)) p = true :=
      pathExists_link_file lookup_set_self hlook2
    have hrm2 : osRemove (setFS p (Node.symlink target) (eraseFS p fs)) p =
        Except.ok (eraseFS p (setFS p (Node.symlink target) (eraseFS p fs))) := by
      unfold osRemove
      rw [lookup_set_self]
    unfold replaceSymlink
    rw [if_pos hres2, bind_ok_apply hrm2, erase_set_self, erase_erase]
    exact osSymlink_ok (lexists_eq_false lookup_erase_self)

/-- C2 witness: on a concrete state with a resolvable pre-existing link and
the Julia binary in place, the step succeeds, the link points at the binary,
and a second run reproduces the same state. -/
theorem c2_witness :
    ∃ fs2, replaceSymlink fsPrior (juliaBinPath "/opt/conda" "julia-env")
          "/opt/conda/envs/julia-env/bin/julia" = Except.ok fs2 ∧
      lookupFS fs2 "/opt/conda/envs/julia-env/bin/julia" =
          some (Node.symlink (juliaBinPath "/opt/conda" "julia-env")) ∧
      replaceSymlink fs2 (juliaBinPath "/opt/conda" "julia-env")
          "/opt/conda/envs/julia-env/bin/julia" = Except.ok fs2 :=
  c2_replace_link_idempotent fsPrior "/opt/conda/envs/julia-env/bin/julia"
    (juliaBinPath "/opt/conda" "julia-env") "/old/julia" "bin"
    rfl rfl rfl (by decide)

/-- C4: a missing `CONDA_DIR` makes `prepare_julia` fail with exactly the
`KeyError` of that first read, and a missing `JULIA_PKGDIR` makes it fail
with exactly the `KeyError` of the read at the start of the configuration
phase, once the install-and-link phase has completed; no default is used. -/
theorem c4_missing_env_var_fails_at_read :
    (∀ (env : String → Option String) (v cn jn : String) (fs : FS),
       env "CONDA_DIR" = none →
       prepare_julia env v cn jn fs = Except.error (Err.keyError "CONDA_DIR")) ∧
    (∀ (env : String → Option String) (v cn jn condaDir : String) (fs fs7 : FS),
       env "CONDA_DIR" = some condaDir →
       installAndLink condaDir v cn jn fs = Except.ok fs7 →
       env "JULIA_PKGDIR" = none →
       prepare_julia env v cn jn fs = Except.error (Err.keyError "JULIA_PKGDIR")) := by
  constructor
  · intro env v cn jn fs h
    unfold prepare_julia
    rw [h]
  · intro env v cn jn condaDir fs fs7 henv hil hpkg
    unfold prepare_julia
    rw [henv]
    show (installAndLink condaDir v cn jn fs).bind (configure env condaDir cn) =
      Except.error (Err.keyError "JULIA_PKGDIR")
    rw [bind_ok_apply hil]
    unfold configure
    rw [hpkg]

/-- C4 witness: an empty environment fails at the `CONDA_DIR` read, and an
environment with only `CONDA_DIR` completes the install-and-link phase on
`fs0` and then fails at the `JULIA_PKGDIR` read. -/
theorem c4_witness :
    prepare_julia (fun _ => none) "1.10.0" "julia-env" "jupyter" fs0 =
        Except.error (Err.keyError "CONDA_DIR") ∧
      prepare_julia env1 "1.10.0" "julia-env" "jupyter" fs0 =
        Except.error (Err.keyError "JULIA_PKGDIR") :=
  ⟨c4_missing_env_var_fails_at_read.1 (fun _ => none) "1.10.0" "julia-env" "jupyter"
      fs0 rfl,
   c4_missing_env_var_fails_at_read.2 env1 "1.10.0" "julia-env" "jupyter" "/opt/conda"
      fs0 fsLinks rfl rfl rfl⟩

/-- C5: each failure class propagates as the uncaught exception of the
operation that raised it, unchanged, terminating the run: a failed manifest
fetch, a missing `CONDA_DIR`, an unsupported machine (`KeyError` of the
`unify_aarch64` lookup), a missing platform entry (`IndexError` of the `[0]`
subscription), a missing archive at `/tmp/julia.tar.gz`
(`FileNotFoundError` of the extraction), and a failing symlink replacement
whose error surfaces verbatim as the result of `prepare_julia`. -/
theorem c5_failures_propagate_uncaught :
    (∀ (e : Err) (machine : String),
       run_get_latest (Except.error e) machine = Except.error e) ∧
    (∀ (env : String → Option String) (v cn jn : String) (fs : FS),
       env "CONDA_DIR" = none →
       prepare_julia env v cn jn fs = Except.error (Err.keyError "CONDA_DIR")) ∧
    (∀ (m : Manifest) (machine k : String) (entry : VersionEntry),
       maxKey (stableVersions m) = some k →
       lookupEntry (stableVersions m) k = some entry →
       unify_aarch64 machine = none →
       get_latest_julia_url m machine = Except.error (Err.keyError machine)) ∧
    (∀ (m : Manifest) (machine k arch : String) (entry : VersionEntry),
       maxKey (stableVersions m) = some k →
       lookupEntry (stableVersions m) k = some entry →
       unify_aarch64 machine = some arch →
       entry.files.filter (fun vf => decide (vf.triplet = arch ++ "-linux-gnu")) = [] →
       get_latest_julia_url m machine = Except.error Err.indexError) ∧
    (∀ (env : String → Option String) (v cn jn condaDir : String) (fs : FS),
       env "CONDA_DIR" = some condaDir →
       lookupFS fs tarPath = none →
       prepare_julia env v cn jn fs = Except.error (Err.fileNotFoundError tarPath)) ∧
    (∀ (env : String → Option String) (v cn jn condaDir : String)
       (fs fs1 fs2 fs3 fs4 : FS) (e : Err),
       env "CONDA_DIR" = some condaDir →
       unpackArchive fs tarPath (condaEnvPath condaDir cn) = Except.ok fs1 →
       osRemove fs1 tarPath = Except.ok fs2 →
       mvCmd fs2 (joinPath (condaEnvPath condaDir cn) ("julia-" ++ v))
           (juliaEnvPath condaDir cn) = Except.ok fs3 →
       makedirs fs3 (joinPath (condaEnvPath condaDir cn) "bin") = Except.ok fs4 →
       replaceSymlink fs4 (juliaBinPath condaDir cn) (condaLinkPath condaDir cn) =
           Except.error e →
       prepare_julia env v cn jn fs = Except.error e) := by
  refine ⟨fun e machine => rfl, ?_, ?_, ?_, ?_, ?_⟩
  · intro env v cn jn fs h
    unfold prepare_julia
    rw [h]
  · intro m machine k entry hmax hent hu
    simp only [get_latest_julia_url, hmax, hent, hu]
  · intro m machine k arch entry hmax hent hu hfilter
    simp only [get_latest_julia_url, hmax, hent, hu, hfilter]
  · intro env v cn jn condaDir fs henv htar
    unfold prepare_julia
    rw [henv]
    show (installAndLink condaDir v cn jn fs).bind (configure env condaDir cn) =
      Except.error (Err.fileNotFoundError tarPath)
    unfold installAndLink
    rw [unpack_missing htar, error_bind, error_bind]
  · intro env v cn jn condaDir fs fs1 fs2 fs3 fs4 e henv h1 h2 h3 h4 hsym
    have hIL : installAndLink condaDir v cn jn fs = Except.error e := by
      unfold installAndLink
      rw [bind_ok_apply h1]
      show (osRemove fs1 tarPath).bind _ = Except.error e
      rw [bind_ok_apply h2]
      show (mvCmd fs2 _ _).bind _ = Except.error e
      rw [bind_ok_apply h3]
      show (makedirs fs3 _).bind _ = Except.error e
      rw [bind_ok_apply h4]
      show (replaceSymlink fs4 _ _).bind _ = Except.error e
      rw [hsym, error_bind]
    unfold prepare_julia
    rw [henv]
    show (installAndLink condaDir v cn jn fs).bind (configure env condaDir cn) =
      Except.error e
    rw [hIL, error_bind]

/-- C5 witness: each propagation fact of the theorem, exercised at a
concrete input — a failed fetch, an empty environment, machine `riscv64`,
an `aarch64` machine against an x86-only manifest, an empty filesystem, and
a dangling link at the conda link location. -/
theorem c5_witness :
    run_get_latest (Except.error (Err.calledProcessError "curl")) "x86_64" =
        Except.error (Err.calledProcessError "curl") ∧
      prepare_julia (fun _ => none) "1.9.0" "julia-env" "jupyter" [] =
        Except.error (Err.keyError "CONDA_DIR") ∧
      get_latest_julia_url demoManifest "riscv64" =
        Except.error (Err.keyError "riscv64") ∧
      get_latest_julia_url
          [("1.10.0", ⟨true,
            [⟨"x86_64-linux-gnu",
              "https://example.org/bin/julia-1.10.0-linux-x86_64.tar.gz",
              "1.10.0"⟩]⟩)] "aarch64" =
        Except.error Err.indexError ∧
      prepare_julia env0 "1.10.0" "julia-env" "jupyter" [] =
        Except.error (Err.fileNotFoundError tarPath) ∧
      prepare_julia env0 "1.10.0" "julia-env" "jupyter" fsPrior2 =
        Except.error (Err.fileExistsError "/opt/conda/envs/julia-env/bin/julia") :=
  ⟨c5_failures_propagate_uncaught.1 (Err.calledProcessError "curl") "x86_64",
   c5_failures_propagate_uncaught.2.1 (fun _ => none) "1.9.0" "julia-env" "jupyter"
     [] rfl,
   c5_failures_propagate_uncaught.2.2.1 demoManifest "riscv64" "1.9.0"
     ⟨true,
       [⟨"x86_64-linux-gnu", "https://example.org/bin/julia-1.9.0-linux-x86_64.tar.gz",
           "1.9.0"⟩,
        ⟨"aarch64-linux-gnu", "https://example.org/bin/julia-1.9.0-linux-aarch64.tar.gz",
           "1.9.0"⟩]⟩
     (by decide) (by decide) rfl,
   c5_failures_propagate_uncaught.2.2.2.1
     [("1.10.0", ⟨true,
       [⟨"x86_64-linux-gnu", "https://example.org/bin/julia-1.10.0-linux-x86_64.tar.gz",
           "1.10.0"⟩]⟩)] "aarch64" "1.10.0" "aarch64"
     ⟨true,
       [⟨"x86_64-linux-gnu", "https://example.org/bin/julia-1.10.0-linux-x86_64.tar.gz",
           "1.10.0"⟩]⟩
     (by decide) (by decide) rfl (by decide),
   c5_failures_propagate_uncaught.2.2.2.2.1 env0 "1.10.0" "julia-env" "jupyter"
     "/opt/conda" [] rfl rfl,
   c5_failures_propagate_uncaught.2.2.2.2.2 env0 "1.10.0" "julia-env" "jupyter"
     "/opt/conda" fsPrior2 fsStage1 fsStage2 fsStage3 fsStage4
     (Err.fileExistsError "/opt/conda/envs/julia-env/bin/julia")
     rfl rfl rfl rfl rfl rfl⟩

/-- C8: the key `get_latest_julia_url` takes the `files` list from is the
maximum of the stable keys under Python string comparison (lexicographic on
code points), and on a manifest whose stable keys are `1.10.0` and `1.9.0`
the lexicographically greater `1.9.0` is selected even though it is the
numerically smaller version. -/
theorem c8_latest_key_is_lexicographic_max :
    (∀ (m : Manifest) (k : String), maxKey (stableVersions m) = some k →
       k ∈ (stableVersions m).map Prod.fst ∧
         ∀ j ∈ (stableVersions m).map Prod.fst, pyStrLt k j = false) ∧
      pyStrLt "1.10.0" "1.9.0" = true ∧
      maxKey (stableVersions demoManifest) = some "1.9.0" ∧
      get_latest_julia_url demoManifest "x86_64" =
        Except.ok ("https://example.org/bin/julia-1.9.0-linux-x86_64.tar.gz", "1.9.0") :=
  ⟨fun m k h => maxKey_spec h, by decide, by decide, rfl⟩

/-- C8 witness: the general maximality fact applied to `demoManifest` and
its selected key `1.9.0`. -/
theorem c8_witness :
    ("1.9.0" : String) ∈ (stableVersions demoManifest).map Prod.fst ∧
      ∀ j ∈ (stableVersions demoManifest).map Prod.fst, pyStrLt "1.9.0" j = false :=
  c8_latest_key_is_lexicographic_max.1 demoManifest "1.9.0" (by decide)

/-- C9: `unify_aarch64` maps `aarch64` and `arm64` to `aarch64` and
`x86_64` to itself; every other machine string is a `KeyError`, and with an
unsupported machine the whole script aborts without reaching the download
or any filesystem mutation. -/
theorem c9_unify_unsupported_machine_aborts :
    unify_aarch64 "aarch64" = some "aarch64" ∧
      unify_aarch64 "arm64" = some "aarch64" ∧
      unify_aarch64 "x86_64" = some "x86_64" ∧
      (∀ s : String, s ≠ "aarch64" → s ≠ "arm64" → s ≠ "x86_64" →
        unify_aarch64 s = none) ∧
      (∀ (m : Manifest) (machine : String) (payload : Option Node)
         (env : String → Option String) (fs fs2 : FS),
        unify_aarch64 machine = none →
        script_main (Except.ok m) machine payload env fs ≠ Except.ok fs2) := by
  refine ⟨rfl, rfl, rfl, ?_, ?_⟩
  · intro s h1 h2 h3
    unfold unify_aarch64
    rw [if_neg h1, if_neg h2, if_neg h3]
  · intro m machine payload env fs fs2 hu
    have hg : ∃ e, run_get_latest (Except.ok m) machine = Except.error e := by
      show ∃ e, get_latest_julia_url m machine = Except.error e
      cases hmk : maxKey (stableVersions m) with
      | none => exact ⟨Err.valueError, by simp only [get_latest_julia_url, hmk]⟩
      | some k =>
        cases hent : lookupEntry (stableVersions m) k with
        | none =>
          exact ⟨Err.keyError k, by simp only [get_latest_julia_url, hmk, hent]⟩
        | some entry =>
          exact ⟨Err.keyError machine,
            by simp only [get_latest_julia_url, hmk, hent, hu]⟩
    obtain ⟨e, he⟩ := hg
    intro hc
    unfold script_main at hc
    rw [he] at hc
    cases hc

/-- C9 witness: machine `riscv64` is rejected and the script aborts on it
for every final state. -/
theorem c9_witness :
    unify_aarch64 "riscv64" = none ∧
      script_main (Except.ok demoManifest) "riscv64" (some (Node.file "payload"))
          env0 [] ≠ Except.ok fsFinal :=
  ⟨c9_unify_unsupported_machine_aborts.2.2.2.1 "riscv64" (by decide) (by decide)
      (by decide),
   c9_unify_unsupported_machine_aborts.2.2.2.2 demoManifest "riscv64"
      (some (Node.file "payload")) env0 [] fsFinal rfl⟩

/-- C3: after every successful `prepare_julia` run, the written `juliarc.jl`
holds exactly the single `push!` directive referencing the conda
environment's `lib` directory followed by a newline (one directive, given a
newline-free environment path), and repeating the write returns the very
same state. -/
theorem c3_config_write_idempotent_single_directive
    (env : String → Option String) (v cn jn condaDir : String) (fs fsF : FS)
    (henv : env "CONDA_DIR" = some condaDir)
    (hnl : '\n' ∉ (condaEnvPath condaDir cn).data)
    (hok : prepare_julia env v cn jn fs = Except.ok fsF) :
    lookupFS fsF (startupFile condaDir cn) =
        some (Node.file (juliarcContent (condaEnvPath condaDir cn))) ∧
      writeFile fsF (startupFile condaDir cn)
          (juliarcContent (condaEnvPath condaDir cn)) = Except.ok fsF ∧
      juliarcContent (condaEnvPath condaDir cn) =
        juliarcLine (condaEnvPath condaDir cn) ++ "\n" ∧
      '\n' ∉ (juliarcLine (condaEnvPath condaDir cn)).data := by
  obtain ⟨fs1, fs2, fs3, fs4, fs5, fs6, fs7, pkgDir, fs8, fs9,
    h1, h2, h3, h4, h5, h6, h7, hpkg, h8, h9, h10⟩ := prepare_ok_inv henv hok
  have hshape := writeFile_ok_inv h10
  subst hshape
  refine ⟨lookup_set_self, ?_, rfl, ?_⟩
  · unfold writeFile
    rw [lookup_set_self]
    exact congrArg Except.ok set_set
  · intro hmem
    unfold juliarcLine at hmem
    rw [String.data_append, String.data_append] at hmem
    rcases List.mem_append.mp hmem with h | h
    · rcases List.mem_append.mp h with h2 | h2
      · exact absurd h2 (by decide)
      · exact newline_not_in_join hnl "lib" (by decide) h2
    · exact absurd h (by decide)

/-- C3 witness: on the concrete happy-path run, the startup file holds the
single directive and rewriting it returns the same state. -/
theorem c3_witness :
    lookupFS fsFinal (startupFile "/opt/conda" "julia-env") =
        some (Node.file (juliarcContent (condaEnvPath "/opt/conda" "julia-env"))) ∧
      writeFile fsFinal (startupFile "/opt/conda" "julia-env")
          (juliarcContent (condaEnvPath "/opt/conda" "julia-env")) =
        Except.ok fsFinal ∧
      juliarcContent (condaEnvPath "/opt/conda" "julia-env") =
        juliarcLine (condaEnvPath "/opt/conda" "julia-env") ++ "\n" ∧
      '\n' ∉ (juliarcLine (condaEnvPath "/opt/conda" "julia-env")).data :=
  c3_config_write_idempotent_single_directive env0 "1.10.0" "julia-env" "jupyter"
    "/opt/conda" fs0 fsFinal rfl (by decide) rfl

/-- C6: after every successful `prepare_julia` run (with the three written
locations distinct), both created links -- the one in the conda
environment's `bin` and the one in the jupyter environment's `bin` -- are
symbolic links to the same path, the Julia binary inside the julia
environment directory. -/
theorem c6_both_links_point_to_same_binary
    (env : String → Option String) (v cn jn condaDir : String) (fs fsF : FS)
    (henv : env "CONDA_DIR" = some condaDir)
    (hne1 : jupyterLinkPath condaDir jn ≠ condaLinkPath condaDir cn)
    (hne2 : startupFile condaDir cn ≠ condaLinkPath condaDir cn)
    (hne3 : startupFile condaDir cn ≠ jupyterLinkPath condaDir jn)
    (hok : prepare_julia env v cn jn fs = Except.ok fsF) :
    lookupFS fsF (condaLinkPath condaDir cn) =
        some (Node.symlink (juliaBinPath condaDir cn)) ∧
      lookupFS fsF (jupyterLinkPath condaDir jn) =
        some (Node.symlink (juliaBinPath condaDir cn)) := by
  obtain ⟨fs1, fs2, fs3, fs4, fs5, fs6, fs7, pkgDir, fs8, fs9,
    h1, h2, h3, h4, h5, h6, h7, hpkg, h8, h9, h10⟩ := prepare_ok_inv henv hok
  have hc5 : lookupFS fs5 (condaLinkPath condaDir cn) =
      some (Node.symlink (juliaBinPath condaDir cn)) := replaceSymlink_ok_at h5
  have hc6 := makedirs_pres h6 hc5
  have hc7 : lookupFS fs7 (condaLinkPath condaDir cn) =
      some (Node.symlink (juliaBinPath condaDir cn)) := by
    rw [replaceSymlink_frame h7 (Ne.symm hne1)]
    exact hc6
  have hj7 : lookupFS fs7 (jupyterLinkPath condaDir jn) =
      some (Node.symlink (juliaBinPath condaDir cn)) := replaceSymlink_ok_at h7
  have hc8 := makedirs_pres h8 hc7
  have hc9 := makedirs_pres h9 hc8
  have hj8 := makedirs_pres h8 hj7
  have hj9 := makedirs_pres h9 hj8
  have hshape := writeFile_ok_inv h10
  subst hshape
  constructor
  · rw [lookup_set_ne (Ne.symm hne2)]
    exact hc9
  · rw [lookup_set_ne (Ne.symm hne3)]
    exact hj9

/-- C6 witness: on the concrete happy-path run, both links hold the same
target, the Julia binary inside the julia environment directory. -/
theorem c6_witness :
    lookupFS fsFinal (condaLinkPath "/opt/conda" "julia-env") =
        some (Node.symlink (juliaBinPath "/opt/conda" "julia-env")) ∧
      lookupFS fsFinal (jupyterLinkPath "/opt/conda" "jupyter") =
        some (Node.symlink (juliaBinPath "/opt/conda" "julia-env")) :=
  c6_both_links_point_to_same_binary env0 "1.10.0" "julia-env" "jupyter"
    "/opt/conda" fs0 fsFinal rfl (by decide) (by decide) (by decide) rfl

/-- C7: `prepare_julia` extracts the archive into the conda environment
directory and renames the extracted `julia-VERSION` directory, so after
every successful run (with the archive's root directory named
`julia-VERSION` and the involved paths distinct, as on a real layout) the
installation resides at the `julia` subdirectory of
`CONDA_DIR/envs/<conda_env_name>`. -/
theorem c7_install_resides_at_julia_subdirectory
    (env : String → Option String) (v cn jn condaDir root : String)
    (entries : List String) (fs fsF : FS)
    (henv : env "CONDA_DIR" = some condaDir)
    (htar : lookupFS fs tarPath = some (Node.archive root entries))
    (hroot : root = "julia-" ++ v)
    (hjep0 : lookupFS fs (juliaEnvPath condaDir cn) = none)
    (hent : ∀ e ∈ entries,
      joinPath (condaEnvPath condaDir cn) e ≠ juliaEnvPath condaDir cn)
    (hsrcne : joinPath (condaEnvPath condaDir cn) ("julia-" ++ v) ≠
      juliaEnvPath condaDir cn)
    (hsrctar : joinPath (condaEnvPath condaDir cn) ("julia-" ++ v) ≠ tarPath)
    (hjc : juliaEnvPath condaDir cn ≠ condaLinkPath condaDir cn)
    (hjj : juliaEnvPath condaDir cn ≠ jupyterLinkPath condaDir jn)
    (hjs : juliaEnvPath condaDir cn ≠ startupFile condaDir cn)
    (hok : prepare_julia env v cn jn fs = Except.ok fsF) :
    lookupFS fsF (juliaEnvPath condaDir cn) = some Node.dir := by
  obtain ⟨fs1, fs2, fs3, fs4, fs5, fs6, fs7, pkgDir, fs8, fs9,
    h1, h2, h3, h4, h5, h6, h7, hpkg, h8, h9, h10⟩ := prepare_ok_inv henv hok
  obtain ⟨root2, entries2, hres, hfs1⟩ := unpack_ok_inv h1
  rw [resolve_of_lookup_archive htar] at hres
  obtain ⟨hr, he⟩ := Node.archive.inj (Option.some.inj hres)
  subst hr
  subst he
  subst hroot
  have hsrc1 : lookupFS fs1 (joinPath (condaEnvPath condaDir cn) ("julia-" ++ v)) =
      some Node.dir := by
    rw [hfs1]
    exact lookup_set_self
  have hjep1 : lookupFS fs1 (juliaEnvPath condaDir cn) = none := by
    rw [hfs1, lookup_set_ne (Ne.symm hsrcne), foldl_set_lookup_ne hent]
    exact hjep0
  have hfs2 := osRemove_ok_inv h2
  have hsrc2 : lookupFS fs2 (joinPath (condaEnvPath condaDir cn) ("julia-" ++ v)) =
      some Node.dir := by
    rw [hfs2, lookup_erase_ne hsrctar]
    exact hsrc1
  have hjep2 : lookupFS fs2 (juliaEnvPath condaDir cn) = none := by
    rw [hfs2]
    by_cases hjt : juliaEnvPath condaDir cn = tarPath
    · rw [hjt]
      exact lookup_erase_self
    · rw [lookup_erase_ne hjt]
      exact hjep1
  have hfs3 : fs3 = renameTree fs2
      (joinPath (condaEnvPath condaDir cn) ("julia-" ++ v))
      (juliaEnvPath condaDir cn) := by
    unfold mvCmd at h3
    rw [show lexistsFS fs2 (joinPath (condaEnvPath condaDir cn) ("julia-" ++ v)) = true
      from by rw [lexistsFS, hsrc2]; rfl] at h3
    rw [isDir_false_of_none hjep2, lexists_eq_false hjep2] at h3
    simp at h3
    exact h3.symm
  have hjep3 : lookupFS fs3 (juliaEnvPath condaDir cn) = some Node.dir := by
    rw [hfs3]
    exact rename_lookup_dst hjep2 hsrc2
  have hjep4 := makedirs_pres h4 hjep3
  have hjep5 : lookupFS fs5 (juliaEnvPath condaDir cn) = some Node.dir := by
    rw [replaceSymlink_frame h5 hjc]
    exact hjep4
  have hjep6 := makedirs_pres h6 hjep5
  have hjep7 : lookupFS fs7 (juliaEnvPath condaDir cn) = some Node.dir := by
    rw [replaceSymlink_frame h7 hjj]
    exact hjep6
  have hjep8 := makedirs_pres h8 hjep7
  have hjep9 := makedirs_pres h9 hjep8
  have hshape := writeFile_ok_inv h10
  subst hshape
  rw [lookup_set_ne hjs]
  exact hjep9

/-- C7 witness: the concrete happy-path run leaves a directory at
`/opt/conda/envs/julia-env/julia`. -/
theorem c7_witness :
    lookupFS fsFinal (juliaEnvPath "/opt/conda" "julia-env") = some Node.dir :=
  c7_install_resides_at_julia_subdirectory env0 "1.10.0" "julia-env" "jupyter"
    "/opt/conda" "julia-1.10.0" ["julia-1.10.0/bin/julia"] fs0 fsFinal
    rfl rfl rfl rfl (by decide) (by decide) (by decide) (by decide) (by decide)
    (by decide) rfl

/-- C10: `download_julia` only writes the fetched payload to
`/tmp/julia.tar.gz` and touches no other path (the unpack and unlink lines
in it are commented out), and `prepare_julia` removes the archive right
after extraction, so after every successful run (with the written paths
distinct from the archive path, as on a real layout) no entry remains at
`/tmp/julia.tar.gz`. -/
theorem c10_download_frame_and_archive_cleanup :
    (∀ (payload : Node) (fs : FS),
       download_julia (some payload) fs = Except.ok (setFS tarPath payload fs) ∧
       lookupFS (setFS tarPath payload fs) tarPath = some payload ∧
       ∀ q, q ≠ tarPath → lookupFS (setFS tarPath payload fs) q = lookupFS fs q) ∧
    (∀ (env : String → Option String) (v cn jn condaDir : String) (fs fsF : FS),
       env "CONDA_DIR" = some condaDir →
       tarPath ≠ juliaEnvPath condaDir cn →
       ((juliaEnvPath condaDir cn).data ++ ['/']).isPrefixOf tarPath.data = false →
       tarPath ≠ joinPath (juliaEnvPath condaDir cn)
         (basename (joinPath (condaEnvPath condaDir cn) ("julia-" ++ v))) →
       ((joinPath (juliaEnvPath condaDir cn)
           (basename (joinPath (condaEnvPath condaDir cn) ("julia-" ++ v)))).data ++
         ['/']).isPrefixOf tarPath.data = false →
       tarPath ≠ joinPath (condaEnvPath condaDir cn) "bin" →
       tarPath ≠ condaLinkPath condaDir cn →
       tarPath ≠ jupyterBinDir condaDir jn →
       tarPath ≠ jupyterLinkPath condaDir jn →
       env "JULIA_PKGDIR" ≠ some tarPath →
       tarPath ≠ startupDir condaDir cn →
       tarPath ≠ startupFile condaDir cn →
       prepare_julia env v cn jn fs = Except.ok fsF →
       lookupFS fsF tarPath = none) := by
  constructor
  · intro payload fs
    exact ⟨rfl, lookup_set_self, fun q hq => lookup_set_ne hq⟩
  · intro env v cn jn condaDir fs fsF henv hj1 hj2 hm1 hm2 hb hcl hjb hjl hpk hsd
      hsf hok
    obtain ⟨fs1, fs2, fs3, fs4, fs5, fs6, fs7, pkgDir, fs8, fs9,
      h1, h2, h3, h4, h5, h6, h7, hpkg, h8, h9, h10⟩ := prepare_ok_inv henv hok
    have ht2 : lookupFS fs2 tarPath = none := by
      rw [osRemove_ok_inv h2]
      exact lookup_erase_self
    obtain ⟨d, hd, hfs3⟩ := mv_ok_inv h3
    have ht3 : lookupFS fs3 tarPath = none := by
      rw [hfs3]
      rcases hd with hd | hd
      · subst hd
        exact rename_pres_none ht2 hm1 hm2
      · subst hd
        exact rename_pres_none ht2 hj1 hj2
    have ht4 := makedirs_pres_none h4 hb ht3
    have ht5 : lookupFS fs5 tarPath = none := by
      rw [replaceSymlink_frame h5 hcl]
      exact ht4
    have ht6 := makedirs_pres_none h6 hjb ht5
    have ht7 : lookupFS fs7 tarPath = none := by
      rw [replaceSymlink_frame h7 hjl]
      exact ht6
    have hpkne : tarPath ≠ pkgDir := fun he => hpk (by rw [← he] at hpkg; exact hpkg)
    have ht8 := makedirs_pres_none h8 hpkne ht7
    have ht9 := makedirs_pres_none h9 hsd ht8
    have hshape := writeFile_ok_inv h10
    subst hshape
    rw [lookup_set_ne hsf]
    exact ht9

/-- C10 witness: the download writes exactly the archive path, and the
concrete happy-path run ends with no entry at `/tmp/julia.tar.gz`. -/
theorem c10_witness :
    download_julia (some (Node.file "payload")) [] =
        Except.ok (setFS tarPath (Node.file "payload") []) ∧
      lookupFS fsFinal tarPath = none :=
  ⟨(c10_download_frame_and_archive_cleanup.1 (Node.file "payload") []).1,
   c10_download_frame_and_archive_cleanup.2 env0 "1.10.0" "julia-env" "jupyter"
     "/opt/conda" fs0 fsFinal rfl (by decide) (by decide) (by decide) (by decide)
     (by decide) (by decide) (by decide) (by decide) (by decide) (by decide)
     (by decide) rfl⟩

end SetupJulia
